import Mathlib

/-
Verification of the CalascioNES bus interconnect (src/src/Bus.cpp) and the
audio ring-buffer consumer (src/main.cpp) against their design document.

Machine integers are modelled as Nat with explicit 8-bit masking where the
C++ code stores into uint8_t fields.  Calls into the external collaborators
(PPU, APU, Cartridge) are recorded in an explicit call list, and their
return values are supplied by an environment of oracle functions.
-/

/-- Zapper (light-gun) value object: screen coordinates, trigger and the
active-low light sensor flag, as held by the Bus (src/src/Bus.cpp). -/
structure Zapper where
  x : Int
  y : Int
  trigger : Bool
  light_sensed : Bool
  deriving Repr, DecidableEq

/-- Bus state: the strobe line, the two controller shift registers
(uint8_t), the IRQ bitmask (uint8_t), the zapper-connected flag, the
Zapper value object and the pending-NMI flag (src/src/Bus.cpp, Bus.h). -/
structure Bus where
  strobe : Bool
  shift_register_controller1 : Nat
  shift_register_controller2 : Nat
  IRQ_line : Nat
  zapper_connected : Bool
  zapper : Zapper
  NMI : Bool
  deriving Repr, DecidableEq

/-- Environment of external collaborators: the global controller_state
bitmask (main.cpp line 47) and read oracles for the PPU, APU and
Cartridge, which are out of scope per the design document. -/
structure Env where
  controller_state : Nat
  ppu_cpu_reads : Nat → Nat
  apu_cpu_reads : Nat → Nat
  cart_cpu_reads : Nat → Nat

/-- Record of one call made by the Bus into an external collaborator. -/
inductive ExtCall where
  | ppuRead (reg : Nat)
  | ppuWrite (reg : Nat) (value : Nat)
  | apuRead (addr : Nat)
  | apuWrite (addr : Nat) (value : Nat)
  | cartRead (addr : Nat)
  | cartWrite (addr : Nat) (value : Nat)
  | checkTargetHit (x : Int) (y : Int)
  deriving Repr, DecidableEq

/-- Bus::cpu_reads (src/src/Bus.cpp lines 22-84).  Returns the byte read,
the updated bus state and the list of external collaborator calls made.
The guard on zapper_connected inside the final 0x4017 branch is kept from
the source even though it is unreachable there (zapper_connected is false
on that branch). -/
def Bus.cpu_reads (st : Bus) (env : Env) (address : Nat) : Nat × Bus × List ExtCall :=
  if 0x2000 ≤ address ∧ address < 0x4000 then
    (env.ppu_cpu_reads (address &&& 0x7), st, [ExtCall.ppuRead (address &&& 0x7)])
  else if 0x4000 ≤ address ∧ address < 0x4018 then
    if address = 0x4016 then
      if st.strobe then
        ((st.shift_register_controller1 &&& 1) ||| 0x40, st, [])
      else
        ((st.shift_register_controller1 &&& 1) ||| 0x40,
          { st with shift_register_controller1 := st.shift_register_controller1 >>> 1 }, [])
    else if address = 0x4017 then
      if st.zapper_connected then
        (st.shift_register_controller2 ||| 0x40,
          { st with zapper := { st.zapper with light_sensed := true } }, [])
      else if st.strobe then
        ((st.shift_register_controller2 &&& 1) ||| 0x40, st, [])
      else
        let data := st.shift_register_controller2 &&& 1
        let st1 := { st with shift_register_controller2 := st.shift_register_controller2 >>> 1 }
        let st2 := if st1.zapper_connected ∧ data = 0 then
            { st1 with zapper := { st1.zapper with trigger := true } }
          else st1
        (data ||| 0x40, st2, [])
    else
      (env.apu_cpu_reads address, st, [ExtCall.apuRead address])
  else if 0x4020 ≤ address ∧ address ≤ 0xFFFF then
    (env.cart_cpu_reads address, st, [ExtCall.cartRead address])
  else
    (0x00, st, [])

/-- Bus::cpu_writes (src/src/Bus.cpp lines 86-119).  Returns the updated
bus state and the list of external collaborator calls made.  On a 0x4016
write the C++ does strobe = value & 1 and, whenever strobe is then set,
latches controller_state into the shift registers (port 2 only when no
zapper is connected). -/
def Bus.cpu_writes (st : Bus) (env : Env) (address : Nat) (value : Nat) : Bus × List ExtCall :=
  if 0x2000 ≤ address ∧ address < 0x4000 then
    (st, [ExtCall.ppuWrite (address &&& 0x7) value])
  else if 0x4000 ≤ address ∧ address < 0x4018 then
    if address = 0x4016 then
      let st1 := { st with strobe := decide (value &&& 1 = 1) }
      if st1.strobe then
        let st2 := { st1 with shift_register_controller1 := env.controller_state &&& 0xFF }
        if ¬ st2.zapper_connected then
          ({ st2 with shift_register_controller2 := (env.controller_state >>> 8) &&& 0xFF }, [])
        else
          (st2, [])
      else
        (st1, [])
    else
      (st, [ExtCall.apuWrite address value])
  else if 0x4020 ≤ address ∧ address ≤ 0xFFFF then
    (st, [ExtCall.cartWrite address value])
  else
    (st, [])

/-- Bus::soft_reset (src/src/Bus.cpp lines 148-152): clear the pending NMI
flag and zero both controller shift registers. -/
def Bus.soft_reset (st : Bus) : Bus :=
  { st with NMI := false, shift_register_controller1 := 0, shift_register_controller2 := 0 }

/-- Bus::update_zapper_coordinates (src/src/Bus.cpp lines 160-168): store
the coordinates, raise the trigger, and rewrite the port-2 register
(SR2 &= 0xE6; SR2 |= trigger << 4).  No external call is made. -/
def Bus.update_zapper_coordinates (st : Bus) (x : Int) (y : Int) : Bus × List ExtCall :=
  let z := { st.zapper with x := x, y := y, trigger := true }
  ({ st with
      zapper := z
      shift_register_controller2 :=
        (st.shift_register_controller2 &&& 0xE6) ||| (z.trigger.toNat <<< 4) }, [])

/-- Bus::fire_zapper (src/src/Bus.cpp lines 170-175): clear the trigger,
clear bit 4 of the port-2 register (SR2 & ~(1 << 4) on uint8_t, i.e.
&&& 0xEF) and then invoke the PPU hit test at the stored coordinates. -/
def Bus.fire_zapper (st : Bus) : Bus × List ExtCall :=
  let z := { st.zapper with trigger := false }
  ({ st with
      zapper := z
      shift_register_controller2 :=
        (st.shift_register_controller2 &&& 0xEF) ||| (z.trigger.toNat <<< 4) },
   [ExtCall.checkTargetHit st.zapper.x st.zapper.y])

/-- Bus::set_light_sensed (src/src/Bus.cpp lines 177-181): store the
inverted hit flag and write it into bit 3 of the port-2 register
(SR2 & ~(1 << 3) on uint8_t, i.e. &&& 0xF7). -/
def Bus.set_light_sensed (st : Bus) (hit : Bool) : Bus :=
  let z := { st.zapper with light_sensed := !hit }
  { st with
      zapper := z
      shift_register_controller2 :=
        (st.shift_register_controller2 &&& 0xF7) ||| (z.light_sensed.toNat <<< 3) }

/-- Bus::assert_irq (src/src/Bus.cpp lines 183-186): OR the source's bits
into the uint8_t IRQ_line. -/
def Bus.assert_irq (st : Bus) (irq : Nat) : Bus :=
  { st with IRQ_line := (st.IRQ_line ||| irq) &&& 0xFF }

/-- Bus::ack_irq (src/src/Bus.cpp lines 188-191): IRQ_line & ~irq on
uint8_t, i.e. keep exactly the low-8 bits of IRQ_line not in irq. -/
def Bus.ack_irq (st : Bus) (irq : Nat) : Bus :=
  { st with IRQ_line := st.IRQ_line &&& (0xFF ^^^ (irq &&& 0xFF)) }

/-- Bus::get_irq (src/src/Bus.cpp lines 193-196): the raw bitmask. -/
def Bus.get_irq (st : Bus) : Nat :=
  st.IRQ_line

/-- Concrete zapper state used by witnesses. -/
def zap0 : Zapper := ⟨0, 0, false, false⟩

/-- Concrete bus state used by witnesses. -/
def bus0 : Bus := ⟨false, 0, 0, 0, false, zap0, false⟩

/-- Concrete environment used by witnesses: controller_state = 1 (A
pressed), all oracle reads return 0. -/
def env0 : Env := ⟨1, fun _ => 0, fun _ => 0, fun _ => 0⟩

/-- Spec range (design document section 4.1): the mirrored PPU register
window. -/
def spec_range_ppu (a : Nat) : Prop := 0x2000 ≤ a ∧ a < 0x4000

/-- Spec range (section 4.1): the controller and light-gun protocol
addresses. -/
def spec_range_controller (a : Nat) : Prop := a = 0x4016 ∨ a = 0x4017

/-- Spec range (section 4.1): the remaining APU window. -/
def spec_range_apu (a : Nat) : Prop :=
  0x4000 ≤ a ∧ a < 0x4018 ∧ a ≠ 0x4016 ∧ a ≠ 0x4017

/-- Spec range (section 4.1): the cartridge window. -/
def spec_range_cart (a : Nat) : Prop := 0x4020 ≤ a ∧ a ≤ 0xFFFF

/-- Spec (section 4.1): an address outside every mapped range. -/
def spec_unmapped (a : Nat) : Prop :=
  ¬ spec_range_ppu a ∧ ¬ spec_range_controller a ∧ ¬ spec_range_apu a ∧ ¬ spec_range_cart a

/-- Reading 0x4016 always yields bit 0 of the port-1 shift register with
the open-bus bit set, shifting the register exactly when strobe is low. -/
lemma cpu_reads_4016_eq (st : Bus) (env : Env) :
    Bus.cpu_reads st env 0x4016 =
      ((st.shift_register_controller1 &&& 1) ||| 0x40,
       if st.strobe then st
       else { st with shift_register_controller1 := st.shift_register_controller1 >>> 1 },
       []) := by
  unfold Bus.cpu_reads
  rw [if_neg (by norm_num), if_pos (by norm_num), if_pos rfl]
  cases h : st.strobe <;> simp [h]

/-- Reading 0x4017 splits into the zapper path, the latched path and the
shifting path. -/
lemma cpu_reads_4017_eq (st : Bus) (env : Env) :
    Bus.cpu_reads st env 0x4017 =
      (if st.zapper_connected then
        (st.shift_register_controller2 ||| 0x40,
         { st with zapper := { st.zapper with light_sensed := true } }, [])
      else if st.strobe then
        ((st.shift_register_controller2 &&& 1) ||| 0x40, st, [])
      else
        ((st.shift_register_controller2 &&& 1) ||| 0x40,
         { st with shift_register_controller2 := st.shift_register_controller2 >>> 1 },
         [])) := by
  unfold Bus.cpu_reads
  rw [if_neg (by norm_num), if_pos (by norm_num), if_neg (by norm_num), if_pos rfl]
  cases hz : st.zapper_connected <;> cases hs : st.strobe <;> simp [hz, hs]

/-- Writing 0x4016 sets strobe from bit 0 of the value and, whenever that
bit is set, latches controller_state into the shift registers (port 2 only
when no zapper is connected). -/
lemma cpu_writes_4016_eq (st : Bus) (env : Env) (v : Nat) :
    Bus.cpu_writes st env 0x4016 v =
      (if v &&& 1 = 1 then
        if st.zapper_connected then
          { st with strobe := true,
                    shift_register_controller1 := env.controller_state &&& 0xFF }
        else
          { st with strobe := true,
                    shift_register_controller1 := env.controller_state &&& 0xFF,
                    shift_register_controller2 := (env.controller_state >>> 8) &&& 0xFF }
      else { st with strobe := false }, []) := by
  unfold Bus.cpu_writes
  rw [if_neg (by norm_num), if_pos (by norm_num), if_pos rfl]
  by_cases hv : v % 2 = 1 <;> cases hz : st.zapper_connected <;>
    simp [Nat.and_one_is_mod, hv, hz]

/-- Writing 0x4017 is forwarded to the APU. -/
lemma cpu_writes_4017_eq (st : Bus) (env : Env) (v : Nat) :
    Bus.cpu_writes st env 0x4017 v = (st, [ExtCall.apuWrite 0x4017 v]) := by
  unfold Bus.cpu_writes
  rw [if_neg (by norm_num), if_pos (by norm_num), if_neg (by norm_num)]

/-- C1, counterexample: the claim says cpu_writes decodes by the same
ranges as cpu_reads, under which a write to 0x4017 would be handled by the
controller/light-gun protocol (internally, with no collaborator call, as
the 0x4016 write is); the code instead forwards a 0x4017 write to the
APU. -/
theorem c1_counterexample :
    (Bus.cpu_writes bus0 env0 0x4017 0).2 = [ExtCall.apuWrite 0x4017 0] ∧
    (Bus.cpu_writes bus0 env0 0x4016 0).2 = [] ∧
    (Bus.cpu_writes bus0 env0 0x4017 0).2 ≠ [] := by
  decide

/-- C1 (amended): for every 16-bit address the five spec ranges are total
and pairwise non-overlapping, cpu_reads routes each range to its handler
(PPU via address &&& 7, controller protocol internally, APU, Cartridge,
and unmapped addresses read 0x00), and cpu_writes decodes by the same
ranges except that a 0x4017 write is forwarded to the APU rather than the
controller protocol; out-of-range writes are no-ops. -/
theorem c1_routing (st : Bus) (env : Env) (a v : Nat) (ha : a ≤ 0xFFFF) :
    ((spec_range_ppu a ∨ spec_range_controller a ∨ spec_range_apu a ∨
        spec_range_cart a ∨ spec_unmapped a) ∧
      ¬ (spec_range_ppu a ∧ spec_range_controller a) ∧
      ¬ (spec_range_ppu a ∧ spec_range_apu a) ∧
      ¬ (spec_range_ppu a ∧ spec_range_cart a) ∧
      ¬ (spec_range_controller a ∧ spec_range_apu a) ∧
      ¬ (spec_range_controller a ∧ spec_range_cart a) ∧
      ¬ (spec_range_apu a ∧ spec_range_cart a)) ∧
    (spec_range_ppu a →
      Bus.cpu_reads st env a = (env.ppu_cpu_reads (a &&& 0x7), st, [ExtCall.ppuRead (a &&& 0x7)]) ∧
      Bus.cpu_writes st env a v = (st, [ExtCall.ppuWrite (a &&& 0x7) v])) ∧
    (spec_range_controller a →
      (Bus.cpu_reads st env a).2.2 = [] ∧
      (a = 0x4016 → (Bus.cpu_writes st env a v).2 = []) ∧
      (a = 0x4017 → Bus.cpu_writes st env a v = (st, [ExtCall.apuWrite 0x4017 v]))) ∧
    (spec_range_apu a →
      Bus.cpu_reads st env a = (env.apu_cpu_reads a, st, [ExtCall.apuRead a]) ∧
      Bus.cpu_writes st env a v = (st, [ExtCall.apuWrite a v])) ∧
    (spec_range_cart a →
      Bus.cpu_reads st env a = (env.cart_cpu_reads a, st, [ExtCall.cartRead a]) ∧
      Bus.cpu_writes st env a v = (st, [ExtCall.cartWrite a v])) ∧
    (spec_unmapped a →
      Bus.cpu_reads st env a = (0x00, st, []) ∧
      Bus.cpu_writes st env a v = (st, [])) := by
  refine ⟨?_, ?_, ?_, ?_, ?_, ?_⟩
  · unfold spec_unmapped spec_range_ppu spec_range_controller spec_range_apu spec_range_cart
    omega
  · intro h
    unfold spec_range_ppu at h
    obtain ⟨h1, h2⟩ := h
    constructor
    · unfold Bus.cpu_reads
      rw [if_pos ⟨h1, h2⟩]
    · unfold Bus.cpu_writes
      rw [if_pos ⟨h1, h2⟩]
  · intro h
    unfold spec_range_controller at h
    rcases h with rfl | rfl
    · refine ⟨?_, ?_, ?_⟩
      · rw [cpu_reads_4016_eq]
      · intro _
        rw [cpu_writes_4016_eq]
      · intro h
        exact absurd h (by norm_num)
    · refine ⟨?_, ?_, ?_⟩
      · cases hz : st.zapper_connected <;> cases hs : st.strobe <;>
          simp [cpu_reads_4017_eq, hz, hs]
      · intro h
        exact absurd h (by norm_num)
      · intro _
        rw [cpu_writes_4017_eq]
  · intro h
    unfold spec_range_apu at h
    obtain ⟨h1, h2, h3, h4⟩ := h
    constructor
    · unfold Bus.cpu_reads
      rw [if_neg (by omega), if_pos ⟨h1, h2⟩, if_neg h3, if_neg h4]
    · unfold Bus.cpu_writes
      rw [if_neg (by omega), if_pos ⟨h1, h2⟩, if_neg h3]
  · intro h
    unfold spec_range_cart at h
    obtain ⟨h1, h2⟩ := h
    constructor
    · unfold Bus.cpu_reads
      rw [if_neg (by omega), if_neg (by omega), if_pos ⟨h1, h2⟩]
    · unfold Bus.cpu_writes
      rw [if_neg (by omega), if_neg (by omega), if_pos ⟨h1, h2⟩]
  · intro h
    unfold spec_unmapped spec_range_ppu spec_range_controller spec_range_apu spec_range_cart at h
    obtain ⟨hp, hc, hap, hct⟩ := h
    constructor
    · unfold Bus.cpu_reads
      rw [if_neg (by omega), if_neg (by omega), if_neg (by omega)]
    · unfold Bus.cpu_writes
      rw [if_neg (by omega), if_neg (by omega), if_neg (by omega)]

/-- C1 witness: the amended routing theorem applied at concrete mapped and
unmapped addresses. -/
theorem c1_routing_witness :
    Bus.cpu_reads bus0 env0 0x2005 = (env0.ppu_cpu_reads 5, bus0, [ExtCall.ppuRead 5]) ∧
    Bus.cpu_writes bus0 env0 0x2005 7 = (bus0, [ExtCall.ppuWrite 5 7]) ∧
    Bus.cpu_reads bus0 env0 0x4019 = (0x00, bus0, []) ∧
    Bus.cpu_writes bus0 env0 0x4019 7 = (bus0, []) := by
  have hppu := (c1_routing bus0 env0 0x2005 7 (by norm_num)).2.1
    (by unfold spec_range_ppu; norm_num)
  have hun := (c1_routing bus0 env0 0x4019 7 (by norm_num)).2.2.2.2.2
    (by unfold spec_unmapped spec_range_ppu spec_range_controller spec_range_apu spec_range_cart
        norm_num)
  have e : (0x2005 : Nat) &&& 0x7 = 5 := by decide
  rw [e] at hppu
  exact ⟨hppu.1, hppu.2, hun.1, hun.2⟩

/-- One serial read of 0x4016: the successor bus state. -/
def Bus.readStep4016 (env : Env) (st : Bus) : Bus :=
  (Bus.cpu_reads st env 0x4016).2.1

/-- Value returned by the (n+1)-st read of 0x4016, after n earlier
reads starting from st. -/
def Bus.read4016_after (env : Env) (st : Bus) (n : Nat) : Nat :=
  (Bus.cpu_reads ((Bus.readStep4016 env)^[n] st) env 0x4016).1

/-- The strobe pulse: write 1 then 0 to 0x4016, as the input path in
main.cpp (lines 347-348) does after every input event. -/
def Bus.strobe_pulse (st : Bus) (env : Env) : Bus :=
  (Bus.cpu_writes (Bus.cpu_writes st env 0x4016 1).1 env 0x4016 0).1

/-- With strobe low, n serial reads shift the port-1 register right by
n and change nothing else. -/
lemma readStep4016_iterate (env : Env) (n : Nat) :
    ∀ st : Bus, st.strobe = false →
      (Bus.readStep4016 env)^[n] st =
        { st with shift_register_controller1 := st.shift_register_controller1 >>> n } := by
  induction n with
  | zero =>
    intro st h
    simp
  | succ n ih =>
    intro st h
    rw [Function.iterate_succ_apply', ih st h]
    unfold Bus.readStep4016
    rw [cpu_reads_4016_eq]
    simp [h, Nat.shiftRight_succ, Nat.shiftRight_one]

/-- With strobe low, the (n+1)-st serial read of 0x4016 returns bit n of
the initial port-1 register, OR'd with the open-bus bit. -/
lemma read4016_after_eq (env : Env) (st : Bus) (h : st.strobe = false) (n : Nat) :
    Bus.read4016_after env st n =
      ((st.shift_register_controller1 >>> n) &&& 1) ||| 0x40 := by
  unfold Bus.read4016_after
  rw [readStep4016_iterate env n st h, cpu_reads_4016_eq]

/-- The strobe pulse leaves strobe low with both registers latched from
controller_state when no zapper is connected. -/
lemma strobe_pulse_eq (st : Bus) (env : Env) (hz : st.zapper_connected = false) :
    Bus.strobe_pulse st env =
      { st with strobe := false,
                shift_register_controller1 := env.controller_state &&& 0xFF,
                shift_register_controller2 := (env.controller_state >>> 8) &&& 0xFF } := by
  unfold Bus.strobe_pulse
  rw [cpu_writes_4016_eq st env 1]
  simp only [Nat.and_one_is_mod]
  norm_num [hz]
  rw [cpu_writes_4016_eq]
  simp only [Nat.and_one_is_mod]
  norm_num

/-- C2: with the external controller bitmask B in the environment and no
zapper connected, after the strobe pulse the first 8 reads of 0x4016
return the bits of B &&& 0xFF least-significant first, each OR'd with
0x40, and the 9th read returns exactly 0x40 (low bits zero, bit 6 set). -/
theorem c2_controller_serialization (st : Bus) (env : Env)
    (hz : st.zapper_connected = false) :
    (∀ i, i < 8 →
      Bus.read4016_after env (Bus.strobe_pulse st env) i =
        (((env.controller_state &&& 0xFF) >>> i) &&& 1) ||| 0x40) ∧
    Bus.read4016_after env (Bus.strobe_pulse st env) 8 = 0x40 := by
  have hp := strobe_pulse_eq st env hz
  have hstrobe : (Bus.strobe_pulse st env).strobe = false := by rw [hp]
  have hsr : (Bus.strobe_pulse st env).shift_register_controller1 =
      env.controller_state &&& 0xFF := by rw [hp]
  constructor
  · intro i _
    rw [read4016_after_eq env _ hstrobe, hsr]
  · rw [read4016_after_eq env _ hstrobe, hsr]
    have h8 : (env.controller_state &&& 0xFF) >>> 8 = 0 := by
      have hlt : env.controller_state &&& 0xFF < 2 ^ 8 :=
        Nat.and_lt_two_pow _ (by norm_num)
      simp only [Nat.shiftRight_eq_div_pow]
      omega
    rw [h8]
    decide

/-- C2 witness: bitmask 1 (A pressed) latched via the strobe pulse; the
first read of 0x4016 is 0x41, the second 0x40, and the ninth 0x40. -/
theorem c2_witness :
    Bus.read4016_after env0 (Bus.strobe_pulse bus0 env0) 0 = 0x41 ∧
    Bus.read4016_after env0 (Bus.strobe_pulse bus0 env0) 1 = 0x40 ∧
    Bus.read4016_after env0 (Bus.strobe_pulse bus0 env0) 8 = 0x40 := by
  have h := c2_controller_serialization bus0 env0 rfl
  refine ⟨?_, ?_, h.2⟩
  · rw [h.1 0 (by norm_num)]
    decide
  · rw [h.1 1 (by norm_num)]
    decide

/-- C3, counterexample: with strobe already high (no rising transition)
and the external bitmask 1, a strobe-high write still re-latches port 1's
shift register, changing it from 0 to 1 — the claim says it would stay
unchanged. -/
theorem c3_counterexample :
    ({ bus0 with strobe := true } : Bus).strobe = true ∧
    ({ bus0 with strobe := true } : Bus).shift_register_controller1 = 0 ∧
    (Bus.cpu_writes { bus0 with strobe := true } env0 0x4016
        1).1.shift_register_controller1 = 1 := by
  decide

/-- C3 (amended): cpu_writes(0x4016, v) sets strobe to v &&& 1 and,
whenever that bit is 1 — regardless of the previous strobe value — latches
the external bitmask: low byte into port 1's register and high byte into
port 2's register except when zapper_connected; when the bit is 0 neither
register changes; no external call is made. -/
theorem c3_strobe_write (st : Bus) (env : Env) (v : Nat) :
    (Bus.cpu_writes st env 0x4016 v).1.strobe = decide (v &&& 1 = 1) ∧
    (Bus.cpu_writes st env 0x4016 v).1.shift_register_controller1 =
      (if v &&& 1 = 1 then env.controller_state &&& 0xFF
       else st.shift_register_controller1) ∧
    (Bus.cpu_writes st env 0x4016 v).1.shift_register_controller2 =
      (if v &&& 1 = 1 ∧ st.zapper_connected = false
       then (env.controller_state >>> 8) &&& 0xFF
       else st.shift_register_controller2) ∧
    (Bus.cpu_writes st env 0x4016 v).2 = [] := by
  rw [cpu_writes_4016_eq]
  simp only [Nat.and_one_is_mod]
  by_cases hv : v % 2 = 1 <;> cases hz : st.zapper_connected <;> simp [hv, hz]

/-- C7: with a zapper connected, every read of 0x4017 returns the raw
port-2 shift register OR'd with the open-bus bit 0x40, does not shift the
register, makes no external call, and sets light_sensed as a side
effect. -/
theorem c7_zapper_read (st : Bus) (env : Env) (hz : st.zapper_connected = true) :
    Bus.cpu_reads st env 0x4017 =
      (st.shift_register_controller2 ||| 0x40,
       { st with zapper := { st.zapper with light_sensed := true } }, []) := by
  rw [cpu_reads_4017_eq]
  simp [hz]

/-- C7 witness: the zapper read theorem applied at a concrete state. -/
theorem c7_witness :
    Bus.cpu_reads { bus0 with zapper_connected := true } env0 0x4017 =
      (({ bus0 with zapper_connected := true } : Bus).shift_register_controller2 ||| 0x40,
       { { bus0 with zapper_connected := true } with
           zapper := { ({ bus0 with zapper_connected := true } : Bus).zapper with
                         light_sensed := true } },
       []) :=
  c7_zapper_read _ env0 rfl

/-- C9: while strobe is high and no zapper is connected, reads of 0x4016
and 0x4017 return bit 0 of the corresponding shift register OR'd with
0x40 and leave the bus state (in particular both registers) unchanged. -/
theorem c9_latched_reads (st : Bus) (env : Env)
    (hs : st.strobe = true) (hz : st.zapper_connected = false) :
    Bus.cpu_reads st env 0x4016 =
      ((st.shift_register_controller1 &&& 1) ||| 0x40, st, []) ∧
    Bus.cpu_reads st env 0x4017 =
      ((st.shift_register_controller2 &&& 1) ||| 0x40, st, []) := by
  rw [cpu_reads_4016_eq, cpu_reads_4017_eq]
  simp [hs, hz]

/-- C9 witness: the latched-read theorem applied at a concrete state. -/
theorem c9_witness :
    Bus.cpu_reads { bus0 with strobe := true } env0 0x4016 =
      ((({ bus0 with strobe := true } : Bus).shift_register_controller1 &&& 1) ||| 0x40,
       { bus0 with strobe := true }, []) ∧
    Bus.cpu_reads { bus0 with strobe := true } env0 0x4017 =
      ((({ bus0 with strobe := true } : Bus).shift_register_controller2 &&& 1) ||| 0x40,
       { bus0 with strobe := true }, []) :=
  c9_latched_reads _ env0 rfl rfl

/-- One interrupt-source event: assert or acknowledge source s, whose
bitmask is 1 <<< s (one bit per source, per the design document). -/
inductive IrqEvent where
  | assert_src (s : Nat)
  | ack_src (s : Nat)
  deriving Repr, DecidableEq

/-- Run a trace of assert/ack events through the Bus IRQ interface. -/
def Bus.run_irq (st : Bus) : List IrqEvent → Bus
  | [] => st
  | IrqEvent.assert_src s :: evs => Bus.run_irq (Bus.assert_irq st (1 <<< s)) evs
  | IrqEvent.ack_src s :: evs => Bus.run_irq (Bus.ack_irq st (1 <<< s)) evs

/-- Last-event-wins pending flag for source s, starting from flag b. -/
def pending_from (b : Bool) (s : Nat) : List IrqEvent → Bool
  | [] => b
  | IrqEvent.assert_src t :: evs => pending_from (if t = s then true else b) s evs
  | IrqEvent.ack_src t :: evs => pending_from (if t = s then false else b) s evs

/-- Source s has been asserted and not acknowledged since. -/
def pending_source (s : Nat) (evs : List IrqEvent) : Bool :=
  pending_from false s evs

/-- Each of the low eight bits of the 0xFF mask is set. -/
lemma testBit_ff {s : Nat} (hs : s < 8) : Nat.testBit 0xFF s = true := by
  interval_cases s <;> decide

/-- Asserting source t sets bit t and keeps every other low bit. -/
lemma assert_irq_testBit (st : Bus) (t s : Nat) (hs : s < 8) :
    (Bus.assert_irq st (1 <<< t)).IRQ_line.testBit s =
      (st.IRQ_line.testBit s || decide (t = s)) := by
  show ((st.IRQ_line ||| (1 <<< t)) &&& 0xFF).testBit s = _
  rw [Nat.testBit_and, Nat.testBit_or, Nat.one_shiftLeft, Nat.testBit_two_pow,
    testBit_ff hs, Bool.and_true]

/-- Acknowledging source t clears bit t and keeps every other low bit. -/
lemma ack_irq_testBit (st : Bus) (t s : Nat) (hs : s < 8) :
    (Bus.ack_irq st (1 <<< t)).IRQ_line.testBit s =
      (st.IRQ_line.testBit s && ! decide (t = s)) := by
  show (st.IRQ_line &&& (0xFF ^^^ ((1 <<< t) &&& 0xFF))).testBit s = _
  rw [Nat.testBit_and, Nat.testBit_xor, Nat.testBit_and, Nat.one_shiftLeft,
    Nat.testBit_two_pow, testBit_ff hs, Bool.and_true, Bool.true_xor]

/-- Over a trace, bit s of the IRQ line is the last-event-wins pending
flag of source s. -/
lemma run_irq_testBit (evs : List IrqEvent) :
    ∀ (st : Bus) (s : Nat), s < 8 →
      (Bus.run_irq st evs).IRQ_line.testBit s =
        pending_from (st.IRQ_line.testBit s) s evs := by
  induction evs with
  | nil =>
    intro st s _
    rfl
  | cons e evs ih =>
    intro st s hs
    cases e with
    | assert_src t =>
      have harg : (Bus.assert_irq st (1 <<< t)).IRQ_line.testBit s =
          (if t = s then true else st.IRQ_line.testBit s) := by
        rw [assert_irq_testBit st t s hs]
        by_cases h : t = s <;> simp [h]
      show (Bus.run_irq (Bus.assert_irq st (1 <<< t)) evs).IRQ_line.testBit s = _
      rw [ih _ s hs, harg]
      rfl
    | ack_src t =>
      have harg : (Bus.ack_irq st (1 <<< t)).IRQ_line.testBit s =
          (if t = s then false else st.IRQ_line.testBit s) := by
        rw [ack_irq_testBit st t s hs]
        by_cases h : t = s <;> simp [h]
      show (Bus.run_irq (Bus.ack_irq st (1 <<< t)) evs).IRQ_line.testBit s = _
      rw [ih _ s hs, harg]
      rfl

/-- Running the IRQ interface keeps the line inside its uint8_t range. -/
lemma run_irq_lt (evs : List IrqEvent) :
    ∀ st : Bus, st.IRQ_line < 256 → (Bus.run_irq st evs).IRQ_line < 256 := by
  induction evs with
  | nil =>
    intro st h
    exact h
  | cons e evs ih =>
    intro st h
    cases e with
    | assert_src t =>
      show (Bus.run_irq (Bus.assert_irq st (1 <<< t)) evs).IRQ_line < 256
      refine ih _ ?_
      show (st.IRQ_line ||| (1 <<< t)) &&& 0xFF < 256
      have h2 : (st.IRQ_line ||| (1 <<< t)) &&& 0xFF ≤ 0xFF := Nat.and_le_right
      omega
    | ack_src t =>
      show (Bus.run_irq (Bus.ack_irq st (1 <<< t)) evs).IRQ_line < 256
      refine ih _ ?_
      show st.IRQ_line &&& (0xFF ^^^ ((1 <<< t) &&& 0xFF)) < 256
      have h2 : st.IRQ_line &&& (0xFF ^^^ ((1 <<< t) &&& 0xFF)) ≤ st.IRQ_line :=
        Nat.and_le_left
      omega

/-- A byte is zero exactly when its eight bits are all clear. -/
lemma eq_zero_iff_low_bits (n : Nat) (hn : n < 256) :
    n = 0 ↔ ∀ s, s < 8 → n.testBit s = false := by
  constructor
  · rintro rfl s _
    simp
  · intro h
    apply Nat.eq_of_testBit_eq
    intro i
    simp only [Nat.zero_testBit]
    by_cases hi : i < 8
    · exact h i hi
    · apply Nat.testBit_lt_two_pow
      calc n < 256 := hn
        _ = 2 ^ 8 := by norm_num
        _ ≤ 2 ^ i := Nat.pow_le_pow_right (by norm_num) (by omega)

/-- C4: assert_irq ORs the source's bit into IRQ_line, ack_irq ANDs it
out, get_irq returns the raw bitmask: two distinct asserted sources are
both set; acking one leaves the other set; and over any event trace from
a clear line, get_irq is zero exactly when every asserted source has
since been acknowledged. -/
theorem c4_irq_aggregation :
    (∀ (st : Bus) (s1 s2 : Nat), s1 < 8 → s2 < 8 → s1 ≠ s2 →
      (Bus.get_irq (Bus.assert_irq (Bus.assert_irq st (1 <<< s1)) (1 <<< s2))).testBit s1
          = true ∧
      (Bus.get_irq (Bus.assert_irq (Bus.assert_irq st (1 <<< s1)) (1 <<< s2))).testBit s2
          = true ∧
      (Bus.get_irq (Bus.ack_irq (Bus.assert_irq (Bus.assert_irq st (1 <<< s1)) (1 <<< s2))
          (1 <<< s1))).testBit s2 = true) ∧
    (∀ (st : Bus) (evs : List IrqEvent), st.IRQ_line = 0 →
      (Bus.get_irq (Bus.run_irq st evs) = 0 ↔
        ∀ s, s < 8 → pending_source s evs = false)) := by
  constructor
  · intro st s1 s2 h1 h2 hne
    refine ⟨?_, ?_, ?_⟩
    · show (Bus.assert_irq (Bus.assert_irq st (1 <<< s1)) (1 <<< s2)).IRQ_line.testBit s1
          = true
      rw [assert_irq_testBit _ _ _ h1, assert_irq_testBit _ _ _ h1]
      simp
    · show (Bus.assert_irq (Bus.assert_irq st (1 <<< s1)) (1 <<< s2)).IRQ_line.testBit s2
          = true
      rw [assert_irq_testBit _ _ _ h2]
      simp
    · show (Bus.ack_irq (Bus.assert_irq (Bus.assert_irq st (1 <<< s1)) (1 <<< s2))
          (1 <<< s1)).IRQ_line.testBit s2 = true
      rw [ack_irq_testBit _ _ _ h2, assert_irq_testBit _ _ _ h2]
      simp [hne]
  · intro st evs h0
    unfold Bus.get_irq
    have hlt : (Bus.run_irq st evs).IRQ_line < 256 := run_irq_lt evs st (by omega)
    rw [eq_zero_iff_low_bits _ hlt]
    refine forall_congr' fun s => imp_congr_right fun hs => ?_
    rw [run_irq_testBit evs st s hs, h0]
    simp [pending_source]

/-- C4 witness: sources 0 and 1 asserted and selectively acknowledged,
and a fully acknowledged trace yielding a zero mask. -/
theorem c4_witness :
    (Bus.get_irq (Bus.assert_irq (Bus.assert_irq bus0 (1 <<< 0)) (1 <<< 1))).testBit 0
        = true ∧
    (Bus.get_irq (Bus.ack_irq (Bus.assert_irq (Bus.assert_irq bus0 (1 <<< 0)) (1 <<< 1))
        (1 <<< 0))).testBit 1 = true ∧
    Bus.get_irq (Bus.run_irq bus0
      [IrqEvent.assert_src 0, IrqEvent.assert_src 1,
       IrqEvent.ack_src 0, IrqEvent.ack_src 1]) = 0 := by
  have h := c4_irq_aggregation
  have h1 := h.1 bus0 0 1 (by norm_num) (by norm_num) (by norm_num)
  exact ⟨h1.1, h1.2.2, (h.2 bus0 _ rfl).mpr (by decide)⟩

/-- C8: update_zapper_coordinates(x, y) followed by fire_zapper makes
exactly one PPU hit-test call, at (x, y); fire_zapper clears the trigger
and bit 4 of the port-2 register in the state in effect at the call; and
set_light_sensed(hit) stores the inverted flag and writes it into bit 3
of the port-2 register. -/
theorem c8_zapper_fire (st : Bus) (x y : Int) (hit : Bool) :
    (Bus.update_zapper_coordinates st x y).2 ++
        (Bus.fire_zapper (Bus.update_zapper_coordinates st x y).1).2 =
      [ExtCall.checkTargetHit x y] ∧
    (Bus.fire_zapper (Bus.update_zapper_coordinates st x y).1).1.zapper.trigger = false ∧
    ((Bus.fire_zapper
        (Bus.update_zapper_coordinates st x y).1).1.shift_register_controller2.testBit 4
      = false) ∧
    (Bus.set_light_sensed st hit).zapper.light_sensed = !hit ∧
    (Bus.set_light_sensed st hit).shift_register_controller2.testBit 3 = !hit := by
  have h4 : Nat.testBit 0xEF 4 = false := by decide
  have h3 : Nat.testBit 0xF7 3 = false := by decide
  refine ⟨rfl, rfl, ?_, rfl, ?_⟩
  · simp [Bus.fire_zapper, Bus.update_zapper_coordinates, Nat.testBit_or, Nat.testBit_and,
      h4]
  · have h83 : Nat.testBit 8 3 = true := by decide
    cases hit <;>
      simp [Bus.set_light_sensed, Nat.testBit_or, Nat.testBit_and, h3, h83]

/-- C10: soft_reset zeroes both controller shift registers and clears the
pending-NMI flag, and leaves strobe, the IRQ bitmask, zapper_connected
and the whole Zapper state unchanged. -/
theorem c10_soft_reset (st : Bus) :
    (Bus.soft_reset st).NMI = false ∧
    (Bus.soft_reset st).shift_register_controller1 = 0 ∧
    (Bus.soft_reset st).shift_register_controller2 = 0 ∧
    (Bus.soft_reset st).strobe = st.strobe ∧
    (Bus.soft_reset st).IRQ_line = st.IRQ_line ∧
    (Bus.soft_reset st).zapper_connected = st.zapper_connected ∧
    (Bus.soft_reset st).zapper = st.zapper :=
  ⟨rfl, rfl, rfl, rfl, rfl, rfl, rfl⟩

/-- Audio ring buffer capacity (main.cpp line 35), a power of two. -/
def BUFFER_SIZE : Nat := 8192

/-- Audio ring buffer state: the sample array (int16_t samples modelled
as Int), the producer cursor and the consumer cursor (main.cpp lines
34-38). -/
structure AudioState where
  audio_buffer : Nat → Int
  write_pos : Nat
  read_pos : Nat

/-- Available-data computation of the audio callback (main.cpp line
226). -/
def available_data (s : AudioState) : Nat :=
  if s.write_pos ≥ s.read_pos then s.write_pos - s.read_pos
  else (BUFFER_SIZE - s.read_pos) + s.write_pos

/-- audio_callback (main.cpp lines 223-243): when enough data is
available, copy samples_needed samples — split into the tail segment and
the wrapped front segment when the read crosses the buffer end — and
advance read_pos with the power-of-two mask; on underrun, emit silence of
the full requested length and leave the state unchanged. -/
def audio_callback (s : AudioState) (samples_needed : Nat) : List Int × AudioState :=
  if available_data s ≥ samples_needed then
    if s.read_pos + samples_needed > BUFFER_SIZE then
      (((List.range (BUFFER_SIZE - s.read_pos)).map fun i =>
          s.audio_buffer (s.read_pos + i)) ++
        ((List.range (samples_needed - (BUFFER_SIZE - s.read_pos))).map fun i =>
          s.audio_buffer i),
       { s with read_pos := (s.read_pos + samples_needed) &&& (BUFFER_SIZE - 1) })
    else
      ((List.range samples_needed).map fun i => s.audio_buffer (s.read_pos + i),
       { s with read_pos := (s.read_pos + samples_needed) &&& (BUFFER_SIZE - 1) })
  else
    (List.replicate samples_needed 0, s)

/-- Modelled from the spec: the audio producer (the APU streaming path,
whose code is not under src/) writes samples one at a time at write_pos,
advancing write_pos modulo the buffer size (design document sections 3
and 4.2); the producer never touches read_pos. -/
def producer_write : AudioState → List Int → AudioState
  | s, [] => s
  | s, x :: xs =>
    producer_write
      { s with
          audio_buffer := Function.update s.audio_buffer (s.write_pos % BUFFER_SIZE) x
          write_pos := (s.write_pos + 1) % BUFFER_SIZE } xs

/-- C5: on underrun — the available data, computed exactly as in the
source, is smaller than the request — the callback returns silence of the
full requested length and leaves read_pos (indeed the whole state)
unchanged. -/
theorem c5_underrun (s : AudioState) (n : Nat) (h : available_data s < n) :
    audio_callback s n = (List.replicate n 0, s) := by
  unfold audio_callback
  rw [if_neg (by omega)]

/-- C5 witness: an empty buffer asked for four samples yields four zero
samples and an unchanged state. -/
theorem c5_witness :
    audio_callback ⟨fun _ => 0, 0, 0⟩ 4 =
      (List.replicate 4 0, (⟨fun _ => 0, 0, 0⟩ : AudioState)) :=
  c5_underrun ⟨fun _ => 0, 0, 0⟩ 4 (by decide)

/-- The producer advances write_pos by the number of samples written,
modulo the buffer size. -/
lemma producer_write_write_pos (xs : List Int) :
    ∀ s : AudioState, s.write_pos < BUFFER_SIZE →
      (producer_write s xs).write_pos = (s.write_pos + xs.length) % BUFFER_SIZE := by
  induction xs with
  | nil =>
    intro s hw
    show s.write_pos = (s.write_pos + 0) % BUFFER_SIZE
    rw [Nat.add_zero, Nat.mod_eq_of_lt hw]
  | cons x xs ih =>
    intro s hw
    show (producer_write
        { s with
            audio_buffer := Function.update s.audio_buffer (s.write_pos % BUFFER_SIZE) x
            write_pos := (s.write_pos + 1) % BUFFER_SIZE } xs).write_pos =
      (s.write_pos + (xs.length + 1)) % BUFFER_SIZE
    rw [ih _ (Nat.mod_lt _ (by norm_num [BUFFER_SIZE]))]
    show ((s.write_pos + 1) % BUFFER_SIZE + xs.length) % BUFFER_SIZE = _
    rw [Nat.mod_add_mod]
    congr 1
    omega

/-- The producer never moves read_pos. -/
lemma producer_write_read_pos (xs : List Int) :
    ∀ s : AudioState, (producer_write s xs).read_pos = s.read_pos := by
  induction xs with
  | nil =>
    intro s
    rfl
  | cons x xs ih =>
    intro s
    exact ih _

/-- Positions the producer does not write keep their old contents. -/
lemma producer_write_untouched (xs : List Int) :
    ∀ (s : AudioState) (p : Nat),
      (∀ k, k < xs.length → p ≠ (s.write_pos + k) % BUFFER_SIZE) →
      (producer_write s xs).audio_buffer p = s.audio_buffer p := by
  induction xs with
  | nil =>
    intro s p _
    rfl
  | cons x xs ih =>
    intro s p hp
    have hrest : ∀ k, k < xs.length →
        p ≠ ((s.write_pos + 1) % BUFFER_SIZE + k) % BUFFER_SIZE := by
      intro k hk
      rw [Nat.mod_add_mod]
      have heq : s.write_pos + 1 + k = s.write_pos + (k + 1) := by omega
      rw [heq]
      exact hp (k + 1) (by simp only [List.length_cons]; omega)
    have hne : p ≠ s.write_pos % BUFFER_SIZE := by
      have h0 := hp 0 (by simp only [List.length_cons]; omega)
      simpa using h0
    exact (ih { s with
        audio_buffer := Function.update s.audio_buffer (s.write_pos % BUFFER_SIZE) x
        write_pos := (s.write_pos + 1) % BUFFER_SIZE } p hrest).trans
      (Function.update_noteq hne x s.audio_buffer)

/-- The k-th sample written by the producer lands at write_pos + k, modulo
the buffer size. -/
lemma producer_write_get (xs : List Int) :
    ∀ s : AudioState, xs.length ≤ BUFFER_SIZE →
      ∀ (k : Nat) (hk : k < xs.length),
        (producer_write s xs).audio_buffer ((s.write_pos + k) % BUFFER_SIZE) =
          xs.get ⟨k, hk⟩ := by
  induction xs with
  | nil =>
    intro s _ k hk
    exact absurd hk (by simp)
  | cons x xs ih =>
    intro s hlen k hk
    cases k with
    | zero =>
      have hne : ∀ j, j < xs.length →
          (s.write_pos + 0) % BUFFER_SIZE ≠
            ((s.write_pos + 1) % BUFFER_SIZE + j) % BUFFER_SIZE := by
        intro j hj
        rw [Nat.mod_add_mod]
        simp only [List.length_cons, BUFFER_SIZE] at hlen hj ⊢
        omega
      have h := producer_write_untouched xs
        { s with
            audio_buffer := Function.update s.audio_buffer (s.write_pos % BUFFER_SIZE) x
            write_pos := (s.write_pos + 1) % BUFFER_SIZE }
        ((s.write_pos + 0) % BUFFER_SIZE) hne
      refine h.trans ?_
      rw [Nat.add_zero]
      exact Function.update_same _ _ _
    | succ k =>
      have hk2 : k < xs.length := by
        simp only [List.length_cons] at hk
        omega
      have hlen2 : xs.length ≤ BUFFER_SIZE := by
        simp only [List.length_cons] at hlen
        omega
      have hidx : (s.write_pos + (k + 1)) % BUFFER_SIZE =
          (({ s with
              audio_buffer := Function.update s.audio_buffer (s.write_pos % BUFFER_SIZE) x
              write_pos := (s.write_pos + 1) % BUFFER_SIZE } : AudioState).write_pos + k)
            % BUFFER_SIZE := by
        show _ = ((s.write_pos + 1) % BUFFER_SIZE + k) % BUFFER_SIZE
        rw [Nat.mod_add_mod]
        congr 1
        omega
      show (producer_write
          { s with
              audio_buffer := Function.update s.audio_buffer (s.write_pos % BUFFER_SIZE) x
              write_pos := (s.write_pos + 1) % BUFFER_SIZE } xs).audio_buffer
          ((s.write_pos + (k + 1)) % BUFFER_SIZE) = xs.get ⟨k, hk2⟩
      rw [hidx]
      exact ih _ hlen2 k hk2

/-- C6: writing N samples into a ring buffer whose cursors coincide at p
and then invoking the consumer callback for N samples returns exactly the
written sequence in order — including when the read crosses the buffer
end, where the copy is split into the tail segment followed by the
wrapped front segment — and advances read_pos by N modulo BUFFER_SIZE. -/
theorem c6_roundtrip (buf : Nat → Int) (p N : Nat) (xs : List Int)
    (hp : p < BUFFER_SIZE) (h0 : 0 < N) (hN : N < BUFFER_SIZE)
    (hlen : xs.length = N) :
    (audio_callback (producer_write ⟨buf, p, p⟩ xs) N).1 = xs ∧
    (audio_callback (producer_write ⟨buf, p, p⟩ xs) N).2.read_pos =
      (p + N) % BUFFER_SIZE := by
  have hw : (producer_write ⟨buf, p, p⟩ xs).write_pos = (p + N) % BUFFER_SIZE := by
    rw [producer_write_write_pos xs ⟨buf, p, p⟩ hp, hlen]
  have hr : (producer_write ⟨buf, p, p⟩ xs).read_pos = p :=
    producer_write_read_pos xs ⟨buf, p, p⟩
  have havail : available_data (producer_write ⟨buf, p, p⟩ xs) = N := by
    unfold available_data
    rw [hw, hr]
    simp only [BUFFER_SIZE] at hp hN ⊢
    split <;> omega
  have hmask : (p + N) &&& (BUFFER_SIZE - 1) = (p + N) % BUFFER_SIZE := by
    have h2 : (BUFFER_SIZE : Nat) = 2 ^ 13 := by norm_num [BUFFER_SIZE]
    rw [h2]
    exact Nat.and_pow_two_sub_one_eq_mod _ 13
  have hget : ∀ (k : Nat) (hk : k < N),
      (producer_write ⟨buf, p, p⟩ xs).audio_buffer ((p + k) % BUFFER_SIZE) =
        xs.get ⟨k, by omega⟩ := by
    intro k hk
    exact producer_write_get xs ⟨buf, p, p⟩ (by omega) k (by omega)
  unfold audio_callback
  simp only [havail, hr]
  rw [if_pos (le_refl N)]
  by_cases hcross : p + N > BUFFER_SIZE
  · rw [if_pos hcross]
    constructor
    · apply List.ext_getElem
      · simp only [List.length_append, List.length_map, List.length_range, BUFFER_SIZE] at *
        omega
      · intro i h1 h2
        have hiN : i < N := by omega
        simp only [List.getElem_append, List.getElem_map, List.getElem_range,
          List.length_map, List.length_range]
        split
        · rename_i hlt
          have hidx : p + i = (p + i) % BUFFER_SIZE := by
            simp only [BUFFER_SIZE] at *
            omega
          rw [hidx, hget i hiN]
          rfl
        · rename_i hge
          have hidx : i - (BUFFER_SIZE - p) = (p + i) % BUFFER_SIZE := by
            simp only [BUFFER_SIZE] at *
            omega
          rw [hidx, hget i hiN]
          rfl
    · show (p + N) &&& (BUFFER_SIZE - 1) = (p + N) % BUFFER_SIZE
      exact hmask
  · rw [if_neg hcross]
    constructor
    · apply List.ext_getElem
      · simp only [List.length_map, List.length_range]
        omega
      · intro i h1 h2
        have hiN : i < N := by
          simp only [List.length_map, List.length_range] at h1
          omega
        simp only [List.getElem_map, List.getElem_range]
        have hidx : p + i = (p + i) % BUFFER_SIZE := by
          simp only [BUFFER_SIZE] at *
          omega
        rw [hidx, hget i hiN]
        rfl
    · show (p + N) &&& (BUFFER_SIZE - 1) = (p + N) % BUFFER_SIZE
      exact hmask

/-- C6 witness: three samples written at cursor 8190 wrap around the end
of the buffer and are read back in order, with read_pos advancing to 1. -/
theorem c6_witness :
    (audio_callback (producer_write ⟨fun _ => 0, 8190, 8190⟩ [2, 5, 9]) 3).1 = [2, 5, 9] ∧
    (audio_callback (producer_write ⟨fun _ => 0, 8190, 8190⟩ [2, 5, 9]) 3).2.read_pos = 1 := by
  have h := c6_roundtrip (fun _ => 0) 8190 3 [2, 5, 9]
    (by norm_num [BUFFER_SIZE]) (by norm_num) (by norm_num [BUFFER_SIZE]) rfl
  refine ⟨h.1, ?_⟩
  rw [h.2]
  norm_num [BUFFER_SIZE]
